import Mathlib

/-!
Verification of the linear-solver layer of `rbf/linalg.py`.

Matrices are shallowly embedded as Mathlib matrices over `ℚ` (exact
arithmetic).  External factorization backends (LAPACK `dgetrf`/`dpotrf`/…,
SuperLU, CHOLMOD) are not reimplemented: where a claim is about exact
solutions they are modelled as exact solvers (`ExactBackend`), and where a
claim is about error handling and dispatch they are modelled as parameter
functions returning results together with LAPACK-style `info` codes.

Right-hand sides with trailing broadcast dimensions are embedded as
rectangular matrices `Matrix (Fin n) κ ℚ`.
-/

namespace RBF

open Matrix

/-- Model of an external exact factorization backend (`_DenseSolver`,
`_SparseSolver`, `_DensePosDefSolver`, `_SparsePosDefSolver` viewed at the
level of exact arithmetic): it holds the factored matrix `M` and a solve
routine whose result is an exact solution of `M * x = b` for every
right-hand side.  The source never implements the factorization arithmetic
itself (LAPACK/SuperLU/CHOLMOD); only this solve contract is used by the
code under verification. -/
structure ExactBackend (ι : Type) [Fintype ι] [DecidableEq ι] where
  M : Matrix ι ι ℚ
  sol : {κ : Type} → Matrix ι κ ℚ → Matrix ι κ ℚ
  correct : ∀ {κ : Type} (b : Matrix ι κ ℚ), M * sol b = b

/-- A trivial concrete backend (for the identity matrix), used to
instantiate theorems at concrete inputs. -/
def idBackend (ι : Type) [Fintype ι] [DecidableEq ι] : ExactBackend ι where
  M := 1
  sol := fun b => b
  correct := fun b => Matrix.one_mul b

/-- The augmented matrix `C = np.block([[A, B], [B.T, Z]])` (resp.
`sp.bmat([[A, B], [B.T, None]])`) assembled by `PartitionedSolver.__init__`,
with the row/column index set `Fin n ⊕ Fin p` standing for the
concatenation of the first `n` and the last `p` indices. -/
def augmented {n p : ℕ} (A : Matrix (Fin n) (Fin n) ℚ)
    (B : Matrix (Fin n) (Fin p) ℚ) : Matrix (Fin n ⊕ Fin p) (Fin n ⊕ Fin p) ℚ :=
  Matrix.fromBlocks A B Bᵀ 0

namespace Exact

/-- `Solver`: state after `Solver.__init__`.  The representation dispatch
(sparse → `_SparseSolver`, dense → `_DenseSolver`) selects a backend; both
are exact solvers, kept abstract here.  `inverse` is `self._inverse`. -/
structure Solver (n : ℕ) where
  backend : ExactBackend (Fin n)
  inverse : Option (Matrix (Fin n) (Fin n) ℚ)

/-- `Solver.__init__(A, build_inverse)`: the factorization `be` of `A` is
produced by the external backend; with `build_inverse` the constructor
caches `self._solver.solve(np.eye(n))`. -/
def Solver.init {n : ℕ} (be : ExactBackend (Fin n)) (build_inverse : Bool) :
    Solver n :=
  ⟨be, if build_inverse then some (be.sol (1 : Matrix (Fin n) (Fin n) ℚ)) else none⟩

/-- `Solver.solve(b)`: multiply by the cached inverse when present,
otherwise delegate to the backend's solve. -/
def Solver.solve {n : ℕ} (s : Solver n) {κ : Type} (b : Matrix (Fin n) κ ℚ) :
    Matrix (Fin n) κ ℚ :=
  match s.inverse with
  | some inv => inv * b
  | none => s.backend.sol b

/-- `PosDefSolver`: state after `PosDefSolver.__init__`; structurally the
same dispatch (dense/sparse Cholesky backend plus optional cached inverse),
kept as a separate definition mirroring the separate source class. -/
structure PosDefSolver (n : ℕ) where
  backend : ExactBackend (Fin n)
  inverse : Option (Matrix (Fin n) (Fin n) ℚ)

/-- `PosDefSolver.__init__(A, build_inverse)`. -/
def PosDefSolver.init {n : ℕ} (be : ExactBackend (Fin n))
    (build_inverse : Bool) : PosDefSolver n :=
  ⟨be, if build_inverse then some (be.sol (1 : Matrix (Fin n) (Fin n) ℚ)) else none⟩

/-- `PosDefSolver.solve(b)`. -/
def PosDefSolver.solve {n : ℕ} (s : PosDefSolver n) {κ : Type}
    (b : Matrix (Fin n) κ ℚ) : Matrix (Fin n) κ ℚ :=
  match s.inverse with
  | some inv => inv * b
  | none => s.backend.sol b

/-- `PartitionedSolver`: state after `PartitionedSolver.__init__`.  The
augmented block matrix `[[A, B], [Bᵀ, 0]]` over `Fin n ⊕ Fin p` is factored
by the external LU backend; `inverse` is `self._inverse`. -/
structure PartitionedSolver (n p : ℕ) where
  backend : ExactBackend (Fin n ⊕ Fin p)
  inverse : Option (Matrix (Fin n ⊕ Fin p) (Fin n ⊕ Fin p) ℚ)

/-- `PartitionedSolver.__init__(A, B, build_inverse)`: the factorization of
the augmented matrix is external (`be`); with `build_inverse` the cached
inverse is `self._solver.solve(np.eye(n + p))`. -/
def PartitionedSolver.init {n p : ℕ} (be : ExactBackend (Fin n ⊕ Fin p))
    (build_inverse : Bool) : PartitionedSolver n p :=
  ⟨be, if build_inverse then
        some (be.sol (1 : Matrix (Fin n ⊕ Fin p) (Fin n ⊕ Fin p) ℚ))
      else none⟩

/-- `PartitionedSolver.solve(a, b=None)`.  On the inverse path the slices
`self._inverse[:, :self.n]` and `self._inverse[:, self.n:]` are the column
blocks `toColumns₁`/`toColumns₂`; the final `xy[:self.n], xy[self.n:]`
split is `toRows₁`/`toRows₂`.  On the factorization path a missing `b`
becomes `np.zeros((p,) + a.shape[1:])` and `c = np.concatenate((a, b))` is
`Matrix.fromRows a b`. -/
def PartitionedSolver.solve {n p : ℕ} (s : PartitionedSolver n p) {κ : Type}
    (a : Matrix (Fin n) κ ℚ) (b? : Option (Matrix (Fin p) κ ℚ)) :
    Matrix (Fin n) κ ℚ × Matrix (Fin p) κ ℚ :=
  match s.inverse with
  | some inv =>
    let xy :=
      match b? with
      | none => inv.toColumns₁ * a
      | some b => inv.toColumns₁ * a + inv.toColumns₂ * b
    (xy.toRows₁, xy.toRows₂)
  | none =>
    let b :=
      match b? with
      | none => (0 : Matrix (Fin p) κ ℚ)
      | some b => b
    let xy := s.backend.sol (Matrix.fromRows a b)
    (xy.toRows₁, xy.toRows₂)

/-- `PartitionedPosDefSolver`: state after
`PartitionedPosDefSolver.__init__` — the factorization of `A`
(`self._A_solver`), the dense matrix `self._AiB = A⁻¹B`, the factorization
of the Schur complement (`self._BtAiB_solver`), and `self._inverse`. -/
structure PartitionedPosDefSolver (n p : ℕ) where
  Asolver : ExactBackend (Fin n)
  AiB : Matrix (Fin n) (Fin p) ℚ
  BtAiBsolver : ExactBackend (Fin p)
  inverse : Option (Matrix (Fin n ⊕ Fin p) (Fin n ⊕ Fin p) ℚ)

/-- `PartitionedPosDefSolver.__init__(A, B, build_inverse)`.  The two
external factorizations are `sA` (of `A`) and `sS` (of
`B.T.dot(self._AiB)`, a relation imposed as a hypothesis in the theorems);
`AiB = self._A_solver.solve(B)`.  With `build_inverse` the blocks are
`E = -self._BtAiB_solver.solve(np.eye(p))`, `D = self._AiB.dot(-E)`,
`C = self._A_solver.solve(np.eye(n)) - D.dot(self._AiB.T)`, assembled as
`np.block([[C, D], [D.T, E]])`. -/
def PartitionedPosDefSolver.init {n p : ℕ} (B : Matrix (Fin n) (Fin p) ℚ)
    (sA : ExactBackend (Fin n)) (sS : ExactBackend (Fin p))
    (build_inverse : Bool) : PartitionedPosDefSolver n p :=
  let AiB := sA.sol B
  let inverse :=
    if build_inverse then
      let E := -(sS.sol (1 : Matrix (Fin p) (Fin p) ℚ))
      let D := AiB * (-E)
      let C := sA.sol (1 : Matrix (Fin n) (Fin n) ℚ) - D * AiBᵀ
      some (Matrix.fromBlocks C D Dᵀ E)
    else none
  ⟨sA, AiB, sS, inverse⟩

/-- `PartitionedPosDefSolver.solve(a, b=None)`, line for line: on the
factorization path `Dta = self._BtAiB_solver.solve(self._AiB.T.dot(a))`,
`Ca = self._A_solver.solve(a) - self._AiB.dot(Dta)`; with `b` present
`Eb = -self._BtAiB_solver.solve(b)`, `Db = -self._AiB.dot(Eb)`,
`x = Ca + Db`, `y = Dta + Eb`. -/
def PartitionedPosDefSolver.solve {n p : ℕ} (s : PartitionedPosDefSolver n p)
    {κ : Type} (a : Matrix (Fin n) κ ℚ) (b? : Option (Matrix (Fin p) κ ℚ)) :
    Matrix (Fin n) κ ℚ × Matrix (Fin p) κ ℚ :=
  match s.inverse with
  | some inv =>
    let xy :=
      match b? with
      | none => inv.toColumns₁ * a
      | some b => inv.toColumns₁ * a + inv.toColumns₂ * b
    (xy.toRows₁, xy.toRows₂)
  | none =>
    let Dta := s.BtAiBsolver.sol (s.AiBᵀ * a)
    let Ca := s.Asolver.sol a - s.AiB * Dta
    match b? with
    | none => (Ca, Dta)
    | some b =>
      let Eb := -(s.BtAiBsolver.sol b)
      let Db := -(s.AiB * Eb)
      (Ca + Db, Dta + Eb)

end Exact

/-- The Schur-complement recipe in the words of the spec (§4.6): with
`AiB = A⁻¹B` and `S = BᵀA⁻¹B`, compute `Dᵀa = S⁻¹(AiBᵀa)`,
`x = A⁻¹a − AiB·Dᵀa`; when `b` is present `Eb = −S⁻¹b`, `x += −AiB·Eb`,
`y = Dᵀa + Eb`; when `b` is omitted return `(A⁻¹a − AiB·Dᵀa, Dᵀa)`.
The inverses are supplied explicitly as matrices `Ai`, `Si` (the theorems
require them to be two-sided inverses of `A` and of `BᵀA⁻¹B`). -/
def specSchurRecipe {n p : ℕ} (B : Matrix (Fin n) (Fin p) ℚ)
    (Ai : Matrix (Fin n) (Fin n) ℚ) (Si : Matrix (Fin p) (Fin p) ℚ)
    {κ : Type} (a : Matrix (Fin n) κ ℚ) (b? : Option (Matrix (Fin p) κ ℚ)) :
    Matrix (Fin n) κ ℚ × Matrix (Fin p) κ ℚ :=
  let AiB := Ai * B
  let Dta := Si * (AiBᵀ * a)
  let x0 := Ai * a - AiB * Dta
  match b? with
  | none => (x0, Dta)
  | some b =>
    let Eb := -(Si * b)
    (x0 + -(AiB * Eb), Dta + Eb)

/-! ## Effect-level embedding

Dispatch, warnings and Python exception behavior.  External routines
(LAPACK, SuperLU, CHOLMOD, `np.sqrt`, `scipy.sparse.linalg.gmres`) are
parameters; LAPACK routines are modelled as functions returning a result
together with an `info` code, exactly the interface the source inspects. -/

/-- The Python exceptions that can escape the code under `src/rbf/linalg.py`,
distinguished by their class and message. -/
inductive PyError where
  /-- `ValueError('the i-th argument had an illegal value')` from a negative
  LAPACK `info`. -/
  | illegalValue
  /-- `ValueError` from the `b.ndim` check in
  `_SparsePosDefSolver.solve_L`. -/
  | dimValueError
  /-- `np.linalg.LinAlgError('Singular matrix')`. -/
  | singularMatrix
  /-- `np.linalg.LinAlgError('Matrix not positive definite')`. -/
  | notPositiveDefinite
  /-- `np.linalg.LinAlgError('There are fewer rows than columns in B ...')`
  raised by the partitioned constructors. -/
  | singularBlockMatrix
  /-- `cholmod.CholmodNotPositiveDefiniteError`. -/
  | cholmodNotPosDef
  /-- `NameError`: a name looked up at runtime is unbound. -/
  | nameError
  /-- `ZeroDivisionError`. -/
  | zeroDivision
deriving DecidableEq

/-- Warnings emitted through `warnings.warn`. -/
inductive Warning where
  /-- `CHOLMOD_MSG`: CHOLMOD could not be imported; sparse matrices are
  converted to dense for Cholesky decompositions. -/
  | cholmodMsg
deriving DecidableEq

/-- A numpy array with first axis indexed by `ι`, classified by `ndim` as
the source's `solve_L` does.  Arrays of dimension other than 1 or 2 carry
only their `ndim` (their contents are never read by the modelled code
before the dimension check fires). -/
inductive NDArray (ι : Type) where
  | one (v : ι → ℚ)
  | two (k : ℕ) (M : Matrix ι (Fin k) ℚ)
  | higher (d : ℕ) (h1 : d ≠ 1) (h2 : d ≠ 2)

/-- `b.ndim`. -/
def NDArray.ndim {ι : Type} : NDArray ι → ℕ
  | .one _ => 1
  | .two _ _ => 2
  | .higher d _ _ => d

/-- `any(i == 0 for i in b.shape)` for 1- and 2-dimensional arrays (the
shapes of higher-dimensional arrays are not modelled; the code paths that
receive them never reach this check in the claims below). -/
def NDArray.hasZeroDim {ι : Type} [Fintype ι] : NDArray ι → Bool
  | .one _ => Fintype.card ι == 0
  | .two k _ => Fintype.card ι == 0 || k == 0
  | .higher _ _ _ => false

/-- `np.zeros(b.shape)` for 1- and 2-dimensional arrays. -/
def NDArray.zerosLike {ι : Type} : NDArray ι → NDArray ι
  | .one _ => .one 0
  | .two k _ => .two k 0
  | .higher d h1 h2 => .higher d h1 h2

/-- Model of LAPACK `dgetrf`: packed LU factors, pivot array, `info`. -/
def DgetrfT : Type 1 :=
  {ι : Type} → [Fintype ι] → [DecidableEq ι] → Matrix ι ι ℚ →
    Matrix ι ι ℚ × (ι → ℤ) × ℤ

/-- Model of LAPACK `dgetrs`: solution and `info`. -/
def DgetrsT : Type 1 :=
  {ι κ : Type} → [Fintype ι] → [Fintype κ] → Matrix ι ι ℚ → (ι → ℤ) →
    Matrix ι κ ℚ → Matrix ι κ ℚ × ℤ

/-- Model of LAPACK `dpotrf`: Cholesky factor and `info`. -/
def DpotrfT : Type 1 :=
  {ι : Type} → [Fintype ι] → [DecidableEq ι] → Matrix ι ι ℚ →
    Matrix ι ι ℚ × ℤ

/-- Model of LAPACK `dpotrs`: solution and `info`. -/
def DpotrsT : Type 1 :=
  {ι κ : Type} → [Fintype ι] → [Fintype κ] → Matrix ι ι ℚ →
    Matrix ι κ ℚ → Matrix ι κ ℚ × ℤ

/-- Model of LAPACK `dtrtrs` as used by `_solve_triangular`, taking the
triangular factor and the right-hand side array. -/
def DtrtrsT : Type 1 :=
  {ι : Type} → [Fintype ι] → Matrix ι ι ℚ → NDArray ι → NDArray ι × ℤ

/-- `_lu(A)`: degenerate `(0, 0)` input returns an empty factorization
without invoking `dgetrf`; otherwise negative `info` is an illegal-value
`ValueError` and positive `info` is `LinAlgError('Singular matrix')`. -/
def _lu {ι : Type} [Fintype ι] [DecidableEq ι] (dgetrf : DgetrfT)
    (A : Matrix ι ι ℚ) : Except PyError (Matrix ι ι ℚ × (ι → ℤ)) :=
  if Fintype.card ι = 0 then .ok (0, fun _ => 0)
  else
    let r := dgetrf A
    if r.2.2 < 0 then .error .illegalValue
    else if 0 < r.2.2 then .error .singularMatrix
    else .ok (r.1, r.2.1)

/-- `_cholesky(A)`: degenerate `(0, 0)` input returns an empty factor
without invoking `dpotrf`; positive `info` is
`LinAlgError('Matrix not positive definite')`. -/
def _cholesky {ι : Type} [Fintype ι] [DecidableEq ι] (dpotrf : DpotrfT)
    (A : Matrix ι ι ℚ) : Except PyError (Matrix ι ι ℚ) :=
  if Fintype.card ι = 0 then .ok 0
  else
    let r := dpotrf A
    if r.2 < 0 then .error .illegalValue
    else if 0 < r.2 then .error .notPositiveDefinite
    else .ok r.1

/-- `_solve_lu(fac, piv, b)`: a right-hand side with any zero dimension
short-circuits to `np.zeros(b.shape)` without invoking `dgetrs`. -/
def _solve_lu {ι κ : Type} [Fintype ι] [Fintype κ] (dgetrs : DgetrsT)
    (fac : Matrix ι ι ℚ) (piv : ι → ℤ) (b : Matrix ι κ ℚ) :
    Except PyError (Matrix ι κ ℚ) :=
  if Fintype.card ι = 0 ∨ Fintype.card κ = 0 then .ok 0
  else
    let r := dgetrs fac piv b
    if r.2 < 0 then .error .illegalValue
    else .ok r.1

/-- `_solve_cholesky(L, b)`: same zero-dimension short-circuit, then
`dpotrs`. -/
def _solve_cholesky {ι κ : Type} [Fintype ι] [Fintype κ] (dpotrs : DpotrsT)
    (L : Matrix ι ι ℚ) (b : Matrix ι κ ℚ) : Except PyError (Matrix ι κ ℚ) :=
  if Fintype.card ι = 0 ∨ Fintype.card κ = 0 then .ok 0
  else
    let r := dpotrs L b
    if r.2 < 0 then .error .illegalValue
    else .ok r.1

/-- `_solve_triangular(L, b)`: zero-dimension short-circuit, then `dtrtrs`;
negative `info` is an illegal-value `ValueError`, positive `info` is
`LinAlgError('Singular matrix')`.  There is no check on `b.ndim`. -/
def _solve_triangular {ι : Type} [Fintype ι] (dtrtrs : DtrtrsT)
    (L : Matrix ι ι ℚ) (b : NDArray ι) : Except PyError (NDArray ι) :=
  if b.hasZeroDim then .ok b.zerosLike
  else
    let r := dtrtrs L b
    if r.2 < 0 then .error .illegalValue
    else if 0 < r.2 then .error .singularMatrix
    else .ok r.1

/-- The factor object produced by SuperLU's `splu` (external): only its
`solve` method is used by the source. -/
structure SpluFactor (ι : Type) where
  sol : {κ : Type} → Matrix ι κ ℚ → Matrix ι κ ℚ

/-- Errors SuperLU's `splu` can raise. -/
inductive FactorErr where
  | singular
  | illegal
deriving DecidableEq

/-- How `splu` failures surface to Python. -/
def FactorErr.toPyError : FactorErr → PyError
  | .singular => .singularMatrix
  | .illegal => .illegalValue

/-- Model of `scipy.sparse.linalg.splu`. -/
def SpluT : Type 1 :=
  {ι : Type} → [Fintype ι] → [DecidableEq ι] → Matrix ι ι ℚ →
    Except FactorErr (SpluFactor ι)

/-- `_SparseSolver.__init__(A)`: before factoring, the debug statement
formats `100*A.nnz/(A.shape[0]*A.shape[1])`; the format arguments are
evaluated eagerly, so a matrix with a zero dimension raises
`ZeroDivisionError` here.  Then `splu` factors `A`. -/
def _SparseSolver.init {ι : Type} [Fintype ι] [DecidableEq ι] (splu : SpluT)
    (A : Matrix ι ι ℚ) : Except PyError (SpluFactor ι) :=
  if Fintype.card ι * Fintype.card ι = 0 then .error .zeroDivision
  else (splu A).mapError FactorErr.toPyError

/-- `_SparseSolver.solve(b)`: delegates directly to the SuperLU factor with
no shape short-circuit. -/
def _SparseSolver.solve {ι κ : Type} (f : SpluFactor ι) (b : Matrix ι κ ℚ) :
    Matrix ι κ ℚ :=
  f.sol b

/-- The factor object produced by `cholmod.cholesky` (external): its
`solve_A` and `solve_L` methods, the squared diagonal `D()` and the
fill-reducing permutation `P()`. -/
structure CholmodFactor (ι : Type) where
  solA : {κ : Type} → Matrix ι κ ℚ → Matrix ι κ ℚ
  solL1 : (ι → ℚ) → (ι → ℚ)
  solL2 : {k : ℕ} → Matrix ι (Fin k) ℚ → Matrix ι (Fin k) ℚ
  d : ι → ℚ
  perm : ι → ι

/-- Errors `cholmod.cholesky` can raise. -/
inductive CholmodErr where
  | notPosDef
deriving DecidableEq

/-- Model of `cholmod.cholesky`. -/
def CholmodT : Type 1 :=
  {ι : Type} → [Fintype ι] → [DecidableEq ι] → Matrix ι ι ℚ →
    Except CholmodErr (CholmodFactor ι)

/-- `_SparsePosDefSolver.__init__(A)`: the same eagerly-evaluated debug
percentage (`ZeroDivisionError` on a zero dimension), then
`cholmod.cholesky`. -/
def _SparsePosDefSolver.init {ι : Type} [Fintype ι] [DecidableEq ι]
    (cholmodF : CholmodT) (A : Matrix ι ι ℚ) :
    Except PyError (CholmodFactor ι) :=
  if Fintype.card ι * Fintype.card ι = 0 then .error .zeroDivision
  else (cholmodF A).mapError fun _ => PyError.cholmodNotPosDef

/-- `_SparsePosDefSolver.solve_L(b)`: computes `s_inv = 1.0/np.sqrt(self.d)`
(`np.sqrt` is the external parameter `sqrtFn`); a 2-dimensional `b`
broadcasts `s_inv` over columns, a 1-dimensional `b` multiplies pointwise,
and any other `ndim` raises `ValueError`; the result is
`s_inv * self.factor.solve_L(b[self.p])`. -/
def _SparsePosDefSolver.solve_L {ι : Type} (f : CholmodFactor ι)
    (sqrtFn : ℚ → ℚ) (b : NDArray ι) : Except PyError (NDArray ι) :=
  match b with
  | .one v => .ok (.one fun i => 1 / sqrtFn (f.d i) * f.solL1 (fun j => v (f.perm j)) i)
  | .two k M =>
    .ok (.two k (Matrix.of fun i j => 1 / sqrtFn (f.d i) * f.solL2 (M.submatrix f.perm id) i j))
  | .higher _ _ _ => .error .dimValueError

namespace Eff

/-- A matrix input as seen by `as_sparse_or_array`: either a dense array or
a sparse (CSC) matrix, with the same mathematical entries. -/
inductive MatInput (ι : Type) where
  | dense (A : Matrix ι ι ℚ)
  | sparse (A : Matrix ι ι ℚ)

/-- The backend stored in `Solver._solver` after dispatch. -/
inductive LUBackend (ι : Type) where
  | dense (fac : Matrix ι ι ℚ) (piv : ι → ℤ)
  | sparse (f : SpluFactor ι)

/-- Backend solve: `_DenseSolver.solve` is `_solve_lu`;
`_SparseSolver.solve` delegates to the SuperLU factor. -/
def LUBackend.solve {ι κ : Type} [Fintype ι] [Fintype κ] (dgetrs : DgetrsT) :
    LUBackend ι → Matrix ι κ ℚ → Except PyError (Matrix ι κ ℚ)
  | .dense fac piv, b => _solve_lu dgetrs fac piv b
  | .sparse f, b => .ok (_SparseSolver.solve f b)

/-- State after `Solver.__init__`. -/
structure SolverState (ι : Type) where
  backend : LUBackend ι
  inverse : Option (Matrix ι ι ℚ)

/-- `Solver.__init__(A, build_inverse)`: representation dispatch, then the
optional `self._inverse = self._solver.solve(np.eye(n))`. -/
def Solver.init {ι : Type} [Fintype ι] [DecidableEq ι] (inp : MatInput ι)
    (dgetrf : DgetrfT) (dgetrs : DgetrsT) (splu : SpluT)
    (build_inverse : Bool) : Except PyError (SolverState ι) :=
  let backendE : Except PyError (LUBackend ι) :=
    match inp with
    | .sparse A => (_SparseSolver.init splu A).map LUBackend.sparse
    | .dense A => (_lu dgetrf A).map fun fp => LUBackend.dense fp.1 fp.2
  match backendE with
  | .error e => .error e
  | .ok backend =>
    if build_inverse then
      match backend.solve dgetrs (1 : Matrix ι ι ℚ) with
      | .error e => .error e
      | .ok inv => .ok ⟨backend, some inv⟩
    else .ok ⟨backend, none⟩

/-- `Solver.solve(b)`. -/
def Solver.solve {ι κ : Type} [Fintype ι] [Fintype κ] (st : SolverState ι)
    (dgetrs : DgetrsT) (b : Matrix ι κ ℚ) : Except PyError (Matrix ι κ ℚ) :=
  match st.inverse with
  | some inv => .ok (inv * b)
  | none => st.backend.solve dgetrs b

/-- The backend stored in `PosDefSolver._solver` after dispatch. -/
inductive PDBackend (ι : Type) where
  | dense (chol : Matrix ι ι ℚ)
  | sparse (f : CholmodFactor ι)

/-- Backend solve: `_DensePosDefSolver.solve` is `_solve_cholesky`;
`_SparsePosDefSolver.solve` is `factor.solve_A`. -/
def PDBackend.solve {ι κ : Type} [Fintype ι] [Fintype κ] (dpotrs : DpotrsT) :
    PDBackend ι → Matrix ι κ ℚ → Except PyError (Matrix ι κ ℚ)
  | .dense chol, b => _solve_cholesky dpotrs chol b
  | .sparse f, b => .ok (f.solA b)

/-- State after `PosDefSolver.__init__`. -/
structure PosDefSolverState (ι : Type) where
  backend : PDBackend ι
  inverse : Option (Matrix ι ι ℚ)

/-- The representation dispatch block shared (textually duplicated) by
`PosDefSolver.__init__` and `PartitionedPosDefSolver.__init__`: sparse
input uses CHOLMOD when available; when CHOLMOD is missing it warns with
`CHOLMOD_MSG` and builds `_DensePosDefSolver(A.toarray())` (same entries,
dense representation); dense input builds `_DensePosDefSolver(A)`.  The
emitted warnings are returned alongside the backend. -/
def PDdispatch {ι : Type} [Fintype ι] [DecidableEq ι] (inp : MatInput ι)
    (hasCholmod : Bool) (dpotrf : DpotrfT) (cholmodF : CholmodT) :
    List Warning × Except PyError (PDBackend ι) :=
  match inp with
  | .sparse A =>
    if hasCholmod then
      ([], (_SparsePosDefSolver.init cholmodF A).map PDBackend.sparse)
    else
      ([.cholmodMsg], (_cholesky dpotrf A).map PDBackend.dense)
  | .dense A => ([], (_cholesky dpotrf A).map PDBackend.dense)

/-- `PosDefSolver.__init__(A, build_inverse)`: the dispatch above, then the
optional `self._inverse = self._solver.solve(np.eye(n))`. -/
def PosDefSolver.init {ι : Type} [Fintype ι] [DecidableEq ι]
    (inp : MatInput ι) (hasCholmod : Bool) (dpotrf : DpotrfT)
    (dpotrs : DpotrsT) (cholmodF : CholmodT) (build_inverse : Bool) :
    List Warning × Except PyError (PosDefSolverState ι) :=
  let wb := PDdispatch inp hasCholmod dpotrf cholmodF
  (wb.1,
    match wb.2 with
    | .error e => .error e
    | .ok backend =>
      if build_inverse then
        match backend.solve dpotrs (1 : Matrix ι ι ℚ) with
        | .error e => .error e
        | .ok inv => .ok ⟨backend, some inv⟩
      else .ok ⟨backend, none⟩)

/-- `PosDefSolver.solve(b)`. -/
def PosDefSolver.solve {ι κ : Type} [Fintype ι] [Fintype κ]
    (st : PosDefSolverState ι) (dpotrs : DpotrsT) (b : Matrix ι κ ℚ) :
    Except PyError (Matrix ι κ ℚ) :=
  match st.inverse with
  | some inv => .ok (inv * b)
  | none => st.backend.solve dpotrs b

/-- `PosDefSolver.solve_L(b)`: delegates to the backend's `solve_L`
(the cached inverse plays no role here). -/
def PosDefSolver.solve_L {ι : Type} [Fintype ι] (st : PosDefSolverState ι)
    (dtrtrs : DtrtrsT) (sqrtFn : ℚ → ℚ) (b : NDArray ι) :
    Except PyError (NDArray ι) :=
  match st.backend with
  | .dense chol => _solve_triangular dtrtrs chol b
  | .sparse f => _SparsePosDefSolver.solve_L f sqrtFn b

/-- `is_positive_definite(A)` runs `PosDefSolver(A).L()` under
`try/except (np.linalg.LinAlgError, cholmod.CholmodNotPositiveDefiniteError)`.
`L()` on a successfully constructed solver does not raise, so the try-block
outcome is the constructor's.  When an exception occurs, Python evaluates
the handler's class tuple: `np.linalg.LinAlgError` always resolves, but
`cholmod.CholmodNotPositiveDefiniteError` raises `NameError` when the
CHOLMOD import failed (`cholmod` is unbound); with CHOLMOD importable, the
two caught classes yield `False` and any other exception propagates. -/
def is_positive_definite {ι : Type} [Fintype ι] [DecidableEq ι]
    (inp : MatInput ι) (hasCholmod : Bool) (dpotrf : DpotrfT)
    (dpotrs : DpotrsT) (cholmodF : CholmodT) : Except PyError Bool :=
  match (PosDefSolver.init inp hasCholmod dpotrf dpotrs cholmodF false).2 with
  | .ok _ => .ok true
  | .error e =>
    if hasCholmod then
      match e with
      | .singularMatrix => .ok false
      | .notPositiveDefinite => .ok false
      | .singularBlockMatrix => .ok false
      | .cholmodNotPosDef => .ok false
      | e => .error e
    else .error .nameError

/-- State after `PartitionedSolver.__init__`. -/
structure PartitionedSolverState (n p : ℕ) where
  backend : LUBackend (Fin n ⊕ Fin p)
  inverse : Option (Matrix (Fin n ⊕ Fin p) (Fin n ⊕ Fin p) ℚ)

/-- The body of `PartitionedSolver.__init__` after the `n < p` shape check:
assemble the augmented block matrix, dispatch on the representation of `A`,
and optionally build the inverse by solving against `np.eye(n + p)`. -/
def PartitionedSolver.initAfterCheck {n p : ℕ} (inp : MatInput (Fin n))
    (B : Matrix (Fin n) (Fin p) ℚ) (dgetrf : DgetrfT) (dgetrs : DgetrsT)
    (splu : SpluT) (build_inverse : Bool) :
    Except PyError (PartitionedSolverState n p) :=
  let backendE : Except PyError (LUBackend (Fin n ⊕ Fin p)) :=
    match inp with
    | .sparse A => (_SparseSolver.init splu (augmented A B)).map LUBackend.sparse
    | .dense A => (_lu dgetrf (augmented A B)).map fun fp => LUBackend.dense fp.1 fp.2
  match backendE with
  | .error e => .error e
  | .ok backend =>
    if build_inverse then
      match backend.solve dgetrs (1 : Matrix (Fin n ⊕ Fin p) (Fin n ⊕ Fin p) ℚ) with
      | .error e => .error e
      | .ok inv => .ok ⟨backend, some inv⟩
    else .ok ⟨backend, none⟩

/-- `PartitionedSolver.__init__(A, B, build_inverse)`: `n, p = B.shape`;
when `n < p` raise `LinAlgError` about the singular block matrix, before
anything else is attempted. -/
def PartitionedSolver.init {n p : ℕ} (inp : MatInput (Fin n))
    (B : Matrix (Fin n) (Fin p) ℚ) (dgetrf : DgetrfT) (dgetrs : DgetrsT)
    (splu : SpluT) (build_inverse : Bool) :
    Except PyError (PartitionedSolverState n p) :=
  if n < p then .error .singularBlockMatrix
  else PartitionedSolver.initAfterCheck inp B dgetrf dgetrs splu build_inverse

/-- State after `PartitionedPosDefSolver.__init__`: the factorization of
`A`, the dense `self._AiB`, the dense Cholesky factor of the Schur
complement held by `self._BtAiB_solver`, and `self._inverse`. -/
structure PartitionedPosDefSolverState (n p : ℕ) where
  Asolver : PDBackend (Fin n)
  AiB : Matrix (Fin n) (Fin p) ℚ
  Schol : Matrix (Fin p) (Fin p) ℚ
  inverse : Option (Matrix (Fin n ⊕ Fin p) (Fin n ⊕ Fin p) ℚ)

/-- The body of `PartitionedPosDefSolver.__init__` after the `n < p` shape
check: dispatch the solver for `A` (with the CHOLMOD-missing dense
fallback and its warning), compute `AiB = self._A_solver.solve(B)`, factor
`B.T.dot(AiB)` densely, and optionally assemble the explicit inverse from
the blocks `E = -S⁻¹`, `D = AiB·(-E)`, `C = A⁻¹·I − D·AiBᵀ`. -/
def PartitionedPosDefSolver.initAfterCheck {n p : ℕ} (inp : MatInput (Fin n))
    (B : Matrix (Fin n) (Fin p) ℚ) (hasCholmod : Bool) (dpotrf : DpotrfT)
    (dpotrs : DpotrsT) (cholmodF : CholmodT) (build_inverse : Bool) :
    List Warning × Except PyError (PartitionedPosDefSolverState n p) :=
  let wb := PDdispatch inp hasCholmod dpotrf cholmodF
  (wb.1,
    match wb.2 with
    | .error e => .error e
    | .ok sA =>
      match sA.solve dpotrs B with
      | .error e => .error e
      | .ok AiB =>
        match _cholesky dpotrf (Bᵀ * AiB) with
        | .error e => .error e
        | .ok Schol =>
          if build_inverse then
            match _solve_cholesky dpotrs Schol (1 : Matrix (Fin p) (Fin p) ℚ) with
            | .error e => .error e
            | .ok E0 =>
              match sA.solve dpotrs (1 : Matrix (Fin n) (Fin n) ℚ) with
              | .error e => .error e
              | .ok C0 =>
                let E := -E0
                let D := AiB * (-E)
                .ok ⟨sA, AiB, Schol,
                      some (Matrix.fromBlocks (C0 - D * AiBᵀ) D Dᵀ E)⟩
          else .ok ⟨sA, AiB, Schol, none⟩)

/-- `PartitionedPosDefSolver.__init__(A, B, build_inverse)`: the `n < p`
shape check fires before the dispatch branch, so no warning is emitted and
no factorization attempted in that case. -/
def PartitionedPosDefSolver.init {n p : ℕ} (inp : MatInput (Fin n))
    (B : Matrix (Fin n) (Fin p) ℚ) (hasCholmod : Bool) (dpotrf : DpotrfT)
    (dpotrs : DpotrsT) (cholmodF : CholmodT) (build_inverse : Bool) :
    List Warning × Except PyError (PartitionedPosDefSolverState n p) :=
  if n < p then ([], .error .singularBlockMatrix)
  else PartitionedPosDefSolver.initAfterCheck inp B hasCholmod dpotrf dpotrs
        cholmodF build_inverse

/-- `PartitionedSolver.solve(a, b=None)` at the effect level: on the
inverse path the column blocks `self._inverse[:, :self.n]` and
`self._inverse[:, self.n:]` multiply `a` and (when present) `b`; on the
factorization path a missing `b` becomes zeros, `c = np.concatenate((a, b))`
is solved by the backend, and `xy` is split at index `n`. -/
def PartitionedSolver.solve {n p : ℕ} {κ : Type} [Fintype κ]
    (st : PartitionedSolverState n p) (dgetrs : DgetrsT)
    (a : Matrix (Fin n) κ ℚ) (b? : Option (Matrix (Fin p) κ ℚ)) :
    Except PyError (Matrix (Fin n) κ ℚ × Matrix (Fin p) κ ℚ) :=
  match st.inverse with
  | some inv =>
    let xy :=
      match b? with
      | none => inv.toColumns₁ * a
      | some b => inv.toColumns₁ * a + inv.toColumns₂ * b
    .ok (xy.toRows₁, xy.toRows₂)
  | none =>
    let b :=
      match b? with
      | none => (0 : Matrix (Fin p) κ ℚ)
      | some b => b
    match st.backend.solve dgetrs (Matrix.fromRows a b) with
    | .error e => .error e
    | .ok xy => .ok (xy.toRows₁, xy.toRows₂)

/-- `PartitionedPosDefSolver.solve(a, b=None)` at the effect level,
line for line: `Dta = self._BtAiB_solver.solve(self._AiB.T.dot(a))` (a
dense `_solve_cholesky` against the Schur factor),
`Ca = self._A_solver.solve(a) - self._AiB.dot(Dta)`; with `b` present
`Eb = -self._BtAiB_solver.solve(b)`, `Db = -self._AiB.dot(Eb)`,
`x = Ca + Db`, `y = Dta + Eb`. -/
def PartitionedPosDefSolver.solve {n p : ℕ} {κ : Type} [Fintype κ]
    (st : PartitionedPosDefSolverState n p) (dpotrs : DpotrsT)
    (a : Matrix (Fin n) κ ℚ) (b? : Option (Matrix (Fin p) κ ℚ)) :
    Except PyError (Matrix (Fin n) κ ℚ × Matrix (Fin p) κ ℚ) :=
  match st.inverse with
  | some inv =>
    let xy :=
      match b? with
      | none => inv.toColumns₁ * a
      | some b => inv.toColumns₁ * a + inv.toColumns₂ * b
    .ok (xy.toRows₁, xy.toRows₂)
  | none =>
    match _solve_cholesky dpotrs st.Schol (st.AiBᵀ * a) with
    | .error e => .error e
    | .ok Dta =>
      match st.Asolver.solve dpotrs a with
      | .error e => .error e
      | .ok Aia =>
        let Ca := Aia - st.AiB * Dta
        match b? with
        | none => .ok (Ca, Dta)
        | some b =>
          match _solve_cholesky dpotrs st.Schol b with
          | .error e => .error e
          | .ok Sb =>
            let Eb := -Sb
            let Db := -(st.AiB * Eb)
            .ok (Ca + Db, Dta + Eb)

/-- State after `GMRESSolver.__init__`: the row-normalized matrix `self.A`
and the row norms `self.n` (the ILU preconditioner `self.M` is opaque to
the claims and folded into the `gmres` model). -/
structure GMRESSolverState (m : ℕ) where
  A : Matrix (Fin m) (Fin m) ℚ
  n : Fin m → ℚ

/-- Model of `scipy.sparse.linalg.gmres`: takes the system matrix, the
right-hand side and the tolerance, and returns the pair `(x, info)` —
`info` is the convergence status code. -/
def GmresT (m : ℕ) : Type :=
  Matrix (Fin m) (Fin m) ℚ → (Fin m → ℚ) → ℚ → (Fin m → ℚ) × ℤ

/-- `GMRESSolver.solve(b, tol)`: calls
`x, info = spla.gmres(self.A, b/self.n, tol=tol, M=self.M, callback=...)`,
logs `info` at debug severity, and returns `x` — only `x`.  The function is
total: no exception path exists, whatever `info` is. -/
def GMRESSolver.solve {m : ℕ} (st : GMRESSolverState m) (gmres : GmresT m)
    (b : Fin m → ℚ) (tol : ℚ) : Fin m → ℚ :=
  (gmres st.A (fun i => b i / st.n i) tol).1

end Eff

/-- Modelled from the spec: `rbf.sputils.divide_rows(A, n)` — the module
`rbf/sputils.py` is not under `src/`.  Per §4.7 the system matrix is
normalized by dividing each row of `A` by its row norm, so row `i` is
divided by `n i`. -/
def divide_rows {m : ℕ} (A : Matrix (Fin m) (Fin m) ℚ) (nr : Fin m → ℚ) :
    Matrix (Fin m) (Fin m) ℚ :=
  Matrix.of fun i j => A i j / nr i

namespace Mem

/-! Buffer-threading wrappers: each public operation returns its result
together with the value of the caller-owned input buffer after the call.
The direct solvers never write to the caller's buffers:
`as_sparse_or_array`/`as_array`/`np.array(copy=False)` only alias or copy,
and every LAPACK wrapper is called with the overwrite flags at their
default `False`, so `dgetrf`/`dpotrf`/`dgetrs`/`dpotrs`/`dtrtrs` work on
copies; `splu`/`cholmod.cholesky` read the CSC arrays without writing.
`GMRESSolver.__init__` is the one exception: `sp.csc_matrix(A)` aliases the
caller's buffer exactly when `A` is already CSC, and
`divide_rows(A, n, inplace=True)` then writes the normalization into that
buffer; with `inplace=False` it builds a fresh normalized copy. -/

/-- `Solver.__init__` with the caller's matrix buffer threaded through. -/
def Solver.init {ι : Type} [Fintype ι] [DecidableEq ι] (inp : Eff.MatInput ι)
    (dgetrf : DgetrfT) (dgetrs : DgetrsT) (splu : SpluT)
    (build_inverse : Bool) :
    Except PyError (Eff.SolverState ι) × Eff.MatInput ι :=
  (Eff.Solver.init inp dgetrf dgetrs splu build_inverse, inp)

/-- `Solver.solve` with the caller's right-hand-side buffer threaded
through (`dgetrs` is called with `overwrite_b=False`). -/
def Solver.solve {ι κ : Type} [Fintype ι] [Fintype κ]
    (st : Eff.SolverState ι) (dgetrs : DgetrsT) (b : Matrix ι κ ℚ) :
    Except PyError (Matrix ι κ ℚ) × Matrix ι κ ℚ :=
  (Eff.Solver.solve st dgetrs b, b)

/-- `PosDefSolver.__init__` with the caller's matrix buffer threaded
through. -/
def PosDefSolver.init {ι : Type} [Fintype ι] [DecidableEq ι]
    (inp : Eff.MatInput ι) (hasCholmod : Bool) (dpotrf : DpotrfT)
    (dpotrs : DpotrsT) (cholmodF : CholmodT) (build_inverse : Bool) :
    (List Warning × Except PyError (Eff.PosDefSolverState ι)) × Eff.MatInput ι :=
  (Eff.PosDefSolver.init inp hasCholmod dpotrf dpotrs cholmodF build_inverse, inp)

/-- `PosDefSolver.solve` with the right-hand-side buffer threaded
through. -/
def PosDefSolver.solve {ι κ : Type} [Fintype ι] [Fintype κ]
    (st : Eff.PosDefSolverState ι) (dpotrs : DpotrsT) (b : Matrix ι κ ℚ) :
    Except PyError (Matrix ι κ ℚ) × Matrix ι κ ℚ :=
  (Eff.PosDefSolver.solve st dpotrs b, b)

/-- `PartitionedSolver.__init__` with both caller matrices threaded
through (`sp.bmat`/`np.block` copy the blocks into a new matrix). -/
def PartitionedSolver.init {n p : ℕ} (inp : Eff.MatInput (Fin n))
    (B : Matrix (Fin n) (Fin p) ℚ) (dgetrf : DgetrfT) (dgetrs : DgetrsT)
    (splu : SpluT) (build_inverse : Bool) :
    Except PyError (Eff.PartitionedSolverState n p) ×
      (Eff.MatInput (Fin n) × Matrix (Fin n) (Fin p) ℚ) :=
  (Eff.PartitionedSolver.init inp B dgetrf dgetrs splu build_inverse, (inp, B))

/-- `PartitionedPosDefSolver.__init__` with both caller matrices threaded
through. -/
def PartitionedPosDefSolver.init {n p : ℕ} (inp : Eff.MatInput (Fin n))
    (B : Matrix (Fin n) (Fin p) ℚ) (hasCholmod : Bool) (dpotrf : DpotrfT)
    (dpotrs : DpotrsT) (cholmodF : CholmodT) (build_inverse : Bool) :
    (List Warning × Except PyError (Eff.PartitionedPosDefSolverState n p)) ×
      (Eff.MatInput (Fin n) × Matrix (Fin n) (Fin p) ℚ) :=
  (Eff.PartitionedPosDefSolver.init inp B hasCholmod dpotrf dpotrs cholmodF
      build_inverse, (inp, B))

/-- `PartitionedSolver.solve(a, b=None)` with the caller's right-hand-side
buffers threaded through: `as_array` only aliases or copies,
`np.concatenate` copies `a` and `b` into a fresh array, and `dgetrs` (or
the SuperLU solve) is called with `overwrite_b` at its default `False`. -/
def PartitionedSolver.solve {n p : ℕ} {κ : Type} [Fintype κ]
    (st : Eff.PartitionedSolverState n p) (dgetrs : DgetrsT)
    (a : Matrix (Fin n) κ ℚ) (b? : Option (Matrix (Fin p) κ ℚ)) :
    Except PyError (Matrix (Fin n) κ ℚ × Matrix (Fin p) κ ℚ) ×
      (Matrix (Fin n) κ ℚ × Option (Matrix (Fin p) κ ℚ)) :=
  (Eff.PartitionedSolver.solve st dgetrs a b?, (a, b?))

/-- `PartitionedPosDefSolver.solve(a, b=None)` with the caller's
right-hand-side buffers threaded through: `self._AiB.T.dot(a)`,
`self._AiB.dot(...)` and the additions allocate fresh arrays, and
`dpotrs`/`cholmod.solve_A` read their right-hand sides without writing. -/
def PartitionedPosDefSolver.solve {n p : ℕ} {κ : Type} [Fintype κ]
    (st : Eff.PartitionedPosDefSolverState n p) (dpotrs : DpotrsT)
    (a : Matrix (Fin n) κ ℚ) (b? : Option (Matrix (Fin p) κ ℚ)) :
    Except PyError (Matrix (Fin n) κ ℚ × Matrix (Fin p) κ ℚ) ×
      (Matrix (Fin n) κ ℚ × Option (Matrix (Fin p) κ ℚ)) :=
  (Eff.PartitionedPosDefSolver.solve st dpotrs a b?, (a, b?))

/-- `GMRESSolver.__init__(A, ..., normalize_inplace)` with the caller's
matrix buffer threaded through.  `A0 = sp.csc_matrix(A)` aliases the
caller's buffer exactly when `A` is already CSC (`isCsc`); `n = row_norms(A0)`
(external Euclidean row norms, the parameter `rowNormsFn` — implemented in
`rbf/sputils.py`, not under `src/`); with `normalize_inplace` the rows of
`A0` are divided in place, otherwise a fresh normalized copy is built.
The ILU preconditioner reads the normalized matrix without writing. -/
def GMRESSolver.init {m : ℕ} (A : Matrix (Fin m) (Fin m) ℚ) (isCsc : Bool)
    (rowNormsFn : Matrix (Fin m) (Fin m) ℚ → Fin m → ℚ)
    (normalize_inplace : Bool) :
    Eff.GMRESSolverState m × Matrix (Fin m) (Fin m) ℚ :=
  let nr := rowNormsFn A
  let Anorm := divide_rows A nr
  (⟨Anorm, nr⟩, if normalize_inplace && isCsc then Anorm else A)

end Mem

/-! Trivial concrete models of the external routines, used to instantiate
theorems at concrete inputs. -/

/-- A `dgetrf` model that always reports success. -/
def dgetrfTriv : DgetrfT := fun A => (A, fun _ => 0, 0)

/-- A `dgetrs` model that always reports success. -/
def dgetrsTriv : DgetrsT := fun _ _ b => (b, 0)

/-- A `dpotrf` model that always reports success. -/
def dpotrfTriv : DpotrfT := fun A => (A, 0)

/-- A `dpotrf` model that always reports a failed leading minor
(`info = 1`), the LAPACK behavior on a matrix that is not positive
definite. -/
def dpotrfFail : DpotrfT := fun A => (A, 1)

/-- A `dpotrs` model that always reports success. -/
def dpotrsTriv : DpotrsT := fun _ b => (b, 0)

/-- A `dtrtrs` model that always reports success. -/
def dtrtrsTriv : DtrtrsT := fun _ b => (b, 0)

/-- A `splu` model that always succeeds with an identity solve. -/
def spluTriv : SpluT := fun _ => .ok ⟨fun b => b⟩

/-- A trivial concrete CHOLMOD factor object: identity solves, unit
diagonal, identity permutation. -/
def cholmodFactorTriv (ι : Type) : CholmodFactor ι :=
  ⟨fun b => b, id, fun M => M, fun _ => 1, id⟩

/-- A `cholmod.cholesky` model that always succeeds with the trivial
factor. -/
def cholmodTriv : CholmodT := fun {ι} _ _ _ => .ok (cholmodFactorTriv ι)

/-! ## Lemmas -/

section Lemmas

variable {ι : Type} [Fintype ι] [DecidableEq ι]

/-- The matrix held by an exact backend is invertible: solving against the
identity produces a two-sided inverse. -/
lemma ExactBackend.sol_one_mul_self (be : ExactBackend ι) :
    be.sol (1 : Matrix ι ι ℚ) * be.M = 1 :=
  Matrix.mul_eq_one_comm.mp (be.correct 1)

/-- Solutions produced by an exact backend are unique: they agree with
multiplication by any left inverse of `M`. -/
lemma ExactBackend.sol_eq_inv_mul (be : ExactBackend ι) {κ : Type}
    (N : Matrix ι ι ℚ) (hN : N * be.M = 1) (b : Matrix ι κ ℚ) :
    be.sol b = N * b := by
  calc be.sol b = 1 * be.sol b := (Matrix.one_mul _).symm
    _ = (N * be.M) * be.sol b := by rw [hN]
    _ = N * (be.M * be.sol b) := Matrix.mul_assoc _ _ _
    _ = N * b := by rw [be.correct]

/-- Multiplying by the backend's solve of the identity (the cached inverse
built by `build_inverse=True`) agrees with solving directly. -/
lemma ExactBackend.sol_one_mul (be : ExactBackend ι) {κ : Type}
    (b : Matrix ι κ ℚ) : be.sol (1 : Matrix ι ι ℚ) * b = be.sol b :=
  (be.sol_eq_inv_mul (be.sol 1) be.sol_one_mul_self b).symm

end Lemmas

/-- Splitting a product against column blocks: the two partial products the
inverse path computes sum to the product against the stacked right-hand
side. -/
lemma toColumns_mul_fromRows {ι ι₁ ι₂ κ : Type} [Fintype ι₁] [Fintype ι₂]
    (M : Matrix ι (ι₁ ⊕ ι₂) ℚ) (a : Matrix ι₁ κ ℚ) (b : Matrix ι₂ κ ℚ) :
    M.toColumns₁ * a + M.toColumns₂ * b = M * Matrix.fromRows a b := by
  rw [← Matrix.fromColumns_mul_fromRows, Matrix.fromColumns_toColumns]

/-! ## Claim theorems -/

/-- C2.  For every invertible matrix `A` (embedded as an exact backend `be`
for `A`, as produced by the dense or sparse LU factorization) and every
right-hand side `b`, `Solver(A, build_inverse=True).solve(b)` — a product
against the cached inverse `self._solver.solve(np.eye(n))` — equals
`Solver(A, build_inverse=False).solve(b)` — a solve against the cached
factorization — over exact arithmetic; and likewise for `PosDefSolver`
with its Cholesky backend `bePD`. -/
theorem solver_build_inverse_path_agrees {n : ℕ}
    (be bePD : ExactBackend (Fin n)) {κ : Type} (b : Matrix (Fin n) κ ℚ) :
    (Exact.Solver.init be true).solve b = (Exact.Solver.init be false).solve b ∧
    (Exact.PosDefSolver.init bePD true).solve b
      = (Exact.PosDefSolver.init bePD false).solve b := by
  constructor
  · show be.sol 1 * b = be.sol b
    exact be.sol_one_mul b
  · show bePD.sol 1 * b = bePD.sol b
    exact bePD.sol_one_mul b

/-- C7.  For every `PartitionedSolver` (over the exact backend `be` that
factored the augmented block matrix, on either the `build_inverse` path
`bi = true` or the factorization path `bi = false`): `solve(a)` with `b`
omitted returns the same pair as `solve(a, b)` with `b` a zero array whose
trailing dimensions match `a`'s; and in all cases the returned pair is the
combined solution vector split at index `n` — stacking the returned `x`
(first `n` rows) over the returned `y` (remaining `p` rows) recovers the
solve of the stacked right-hand side. -/
theorem partitioned_solver_default_b_and_split {n p : ℕ}
    (be : ExactBackend (Fin n ⊕ Fin p)) (bi : Bool) {κ : Type}
    (a : Matrix (Fin n) κ ℚ) (b : Matrix (Fin p) κ ℚ) :
    (Exact.PartitionedSolver.init be bi).solve a none
      = (Exact.PartitionedSolver.init be bi).solve a (some 0) ∧
    Matrix.fromRows ((Exact.PartitionedSolver.init be bi).solve a (some b)).1
        ((Exact.PartitionedSolver.init be bi).solve a (some b)).2
      = be.sol (Matrix.fromRows a b) := by
  cases bi with
  | false =>
    refine ⟨rfl, ?_⟩
    simp only [Exact.PartitionedSolver.init, Exact.PartitionedSolver.solve]
    exact Matrix.fromRows_toRows _
  | true =>
    constructor
    · simp only [Exact.PartitionedSolver.init, Exact.PartitionedSolver.solve,
        if_true, Matrix.mul_zero, add_zero]
    · simp only [Exact.PartitionedSolver.init, Exact.PartitionedSolver.solve,
        if_true]
      rw [Matrix.fromRows_toRows, toColumns_mul_fromRows, be.sol_one_mul]

/-- C1.  For every positive definite `A` (embedded as the exact backend
`sA` holding `A`, with two-sided inverse `Ai`), every `B` with `p ≤ n`,
and the Schur-complement backend `sS` factoring `B.T.dot(self._AiB)` (with
`Si` a two-sided inverse of `S = BᵀA⁻¹B`),
`PartitionedPosDefSolver(A, B).solve(a, b)` without `build_inverse`
computes exactly the spec's recipe: `Dᵀa = S⁻¹(AiBᵀ·a)` with `AiB = A⁻¹B`,
`x = A⁻¹a − AiB·Dᵀa`, and when `b` is given `Eb = −S⁻¹b`, `x += −AiB·Eb`,
`y = Dᵀa + Eb`; with `b` omitted it returns `(A⁻¹a − AiB·Dᵀa, Dᵀa)`. -/
theorem partitioned_posdef_solve_matches_schur_recipe {n p : ℕ}
    (A : Matrix (Fin n) (Fin n) ℚ) (B : Matrix (Fin n) (Fin p) ℚ)
    (sA : ExactBackend (Fin n)) (sS : ExactBackend (Fin p))
    (Ai : Matrix (Fin n) (Fin n) ℚ) (Si : Matrix (Fin p) (Fin p) ℚ)
    (_hnp : p ≤ n)
    (hA : sA.M = A) (hAi1 : Ai * A = 1) (_hAi2 : A * Ai = 1)
    (hS : sS.M = Bᵀ * sA.sol B)
    (hSi1 : Si * (Bᵀ * Ai * B) = 1) (_hSi2 : (Bᵀ * Ai * B) * Si = 1)
    {κ : Type} (a : Matrix (Fin n) κ ℚ) (b? : Option (Matrix (Fin p) κ ℚ)) :
    (Exact.PartitionedPosDefSolver.init B sA sS false).solve a b?
      = specSchurRecipe B Ai Si a b? := by
  have hsolA : ∀ {κ' : Type} (x : Matrix (Fin n) κ' ℚ), sA.sol x = Ai * x :=
    fun x => sA.sol_eq_inv_mul Ai (by rw [hA]; exact hAi1) x
  have hAiB : sA.sol B = Ai * B := hsolA B
  have hSM : sS.M = Bᵀ * Ai * B := by rw [hS, hAiB, Matrix.mul_assoc]
  have hsolS : ∀ {κ' : Type} (x : Matrix (Fin p) κ' ℚ), sS.sol x = Si * x :=
    fun x => sS.sol_eq_inv_mul Si (by rw [hSM]; exact hSi1) x
  cases b? with
  | none =>
    simp only [Exact.PartitionedPosDefSolver.init,
      Exact.PartitionedPosDefSolver.solve, specSchurRecipe, if_neg,
      Bool.false_eq_true, not_false_iff]
    rw [hAiB, hsolS, hsolA]
  | some b =>
    simp only [Exact.PartitionedPosDefSolver.init,
      Exact.PartitionedPosDefSolver.solve, specSchurRecipe, if_neg,
      Bool.false_eq_true, not_false_iff]
    rw [hAiB, hsolS, hsolS, hsolA]

/-- No branch of `_lu` raises the singular-block-matrix error. -/
lemma _lu_ne_sbm {ι : Type} [Fintype ι] [DecidableEq ι] (dgetrf : DgetrfT)
    (A : Matrix ι ι ℚ) : _lu dgetrf A ≠ .error .singularBlockMatrix := by
  unfold _lu
  dsimp only
  split
  · simp
  · split
    · simp
    · split <;> simp

/-- No branch of `_cholesky` raises the singular-block-matrix error. -/
lemma _cholesky_ne_sbm {ι : Type} [Fintype ι] [DecidableEq ι]
    (dpotrf : DpotrfT) (A : Matrix ι ι ℚ) :
    _cholesky dpotrf A ≠ .error .singularBlockMatrix := by
  unfold _cholesky
  dsimp only
  split
  · simp
  · split
    · simp
    · split <;> simp

/-- No branch of `_solve_lu` raises the singular-block-matrix error. -/
lemma _solve_lu_ne_sbm {ι κ : Type} [Fintype ι] [Fintype κ]
    (dgetrs : DgetrsT) (fac : Matrix ι ι ℚ) (piv : ι → ℤ)
    (b : Matrix ι κ ℚ) :
    _solve_lu dgetrs fac piv b ≠ .error .singularBlockMatrix := by
  unfold _solve_lu
  dsimp only
  split
  · simp
  · split <;> simp

/-- No branch of `_solve_cholesky` raises the singular-block-matrix
error. -/
lemma _solve_cholesky_ne_sbm {ι κ : Type} [Fintype ι] [Fintype κ]
    (dpotrs : DpotrsT) (L : Matrix ι ι ℚ) (b : Matrix ι κ ℚ) :
    _solve_cholesky dpotrs L b ≠ .error .singularBlockMatrix := by
  unfold _solve_cholesky
  dsimp only
  split
  · simp
  · split <;> simp

/-- No branch of `_SparseSolver.__init__` raises the singular-block-matrix
error. -/
lemma sparseSolver_init_ne_sbm {ι : Type} [Fintype ι] [DecidableEq ι]
    (splu : SpluT) (A : Matrix ι ι ℚ) :
    _SparseSolver.init splu A ≠ .error .singularBlockMatrix := by
  unfold _SparseSolver.init
  split
  · simp
  · cases h : splu A with
    | error e => cases e <;> simp [Except.mapError, FactorErr.toPyError, h]
    | ok f => simp [Except.mapError, h]

/-- No branch of `_SparsePosDefSolver.__init__` raises the
singular-block-matrix error. -/
lemma sparsePosDef_init_ne_sbm {ι : Type} [Fintype ι] [DecidableEq ι]
    (cholmodF : CholmodT) (A : Matrix ι ι ℚ) :
    _SparsePosDefSolver.init cholmodF A ≠ .error .singularBlockMatrix := by
  unfold _SparsePosDefSolver.init
  split
  · simp
  · cases h : cholmodF A with
    | error e => simp [Except.mapError, h]
    | ok f => simp [Except.mapError, h]

/-- No branch of a backend solve raises the singular-block-matrix error. -/
lemma luBackend_solve_ne_sbm {ι κ : Type} [Fintype ι] [Fintype κ]
    (dgetrs : DgetrsT) (be : Eff.LUBackend ι) (b : Matrix ι κ ℚ) :
    be.solve dgetrs b ≠ .error .singularBlockMatrix := by
  cases be with
  | dense fac piv => exact _solve_lu_ne_sbm dgetrs fac piv b
  | sparse f => simp [Eff.LUBackend.solve]

/-- No branch of a positive-definite backend solve raises the
singular-block-matrix error. -/
lemma pdBackend_solve_ne_sbm {ι κ : Type} [Fintype ι] [Fintype κ]
    (dpotrs : DpotrsT) (be : Eff.PDBackend ι) (b : Matrix ι κ ℚ) :
    be.solve dpotrs b ≠ .error .singularBlockMatrix := by
  cases be with
  | dense chol => exact _solve_cholesky_ne_sbm dpotrs chol b
  | sparse f => simp [Eff.PDBackend.solve]

/-- The post-check body of `PartitionedSolver.__init__` never raises the
singular-block-matrix error, whatever the external backends do. -/
lemma partitionedSolver_initAfterCheck_ne_sbm {n p : ℕ}
    (inp : Eff.MatInput (Fin n)) (B : Matrix (Fin n) (Fin p) ℚ)
    (dgetrf : DgetrfT) (dgetrs : DgetrsT) (splu : SpluT) (bi : Bool) :
    Eff.PartitionedSolver.initAfterCheck inp B dgetrf dgetrs splu bi
      ≠ .error .singularBlockMatrix := by
  unfold Eff.PartitionedSolver.initAfterCheck
  cases inp with
  | sparse A =>
    cases h : _SparseSolver.init splu (augmented A B) with
    | error e =>
      have := sparseSolver_init_ne_sbm splu (augmented A B)
      rw [h] at this
      simp only [h, Except.map]
      intro hc
      exact this (by cases hc; rfl)
    | ok f =>
      simp only [h, Except.map]
      split
      · cases h2 : Eff.LUBackend.solve dgetrs (Eff.LUBackend.sparse f)
            (1 : Matrix (Fin n ⊕ Fin p) (Fin n ⊕ Fin p) ℚ) with
        | error e =>
          have := luBackend_solve_ne_sbm dgetrs (Eff.LUBackend.sparse f)
            (1 : Matrix (Fin n ⊕ Fin p) (Fin n ⊕ Fin p) ℚ)
          rw [h2] at this
          simp only [h2]
          intro hc
          exact this (by cases hc; rfl)
        | ok inv => simp [h2]
      · simp
  | dense A =>
    cases h : _lu dgetrf (augmented A B) with
    | error e =>
      have := _lu_ne_sbm dgetrf (augmented A B)
      rw [h] at this
      simp only [h, Except.map]
      intro hc
      exact this (by cases hc; rfl)
    | ok fp =>
      simp only [h, Except.map]
      split
      · cases h2 : Eff.LUBackend.solve dgetrs (Eff.LUBackend.dense fp.1 fp.2)
            (1 : Matrix (Fin n ⊕ Fin p) (Fin n ⊕ Fin p) ℚ) with
        | error e =>
          have := luBackend_solve_ne_sbm dgetrs (Eff.LUBackend.dense fp.1 fp.2)
            (1 : Matrix (Fin n ⊕ Fin p) (Fin n ⊕ Fin p) ℚ)
          rw [h2] at this
          simp only [h2]
          intro hc
          exact this (by cases hc; rfl)
        | ok inv => simp [h2]
      · simp

/-- If a computation cannot be the singular-block-matrix error, neither can
the error value it propagates. -/
lemma error_val_ne {α : Type u} {β : Type v} {x : Except PyError α}
    (hx : x ≠ .error .singularBlockMatrix) {e : PyError}
    (h : x = .error e) : Except.error (α := β) e ≠ .error .singularBlockMatrix := by
  intro hc
  cases hc
  exact hx h

/-- Mapping the payload of a computation preserves freedom from the
singular-block-matrix error. -/
lemma map_ne_sbm {α : Type u} {β : Type v} (f : α → β) {x : Except PyError α}
    (hx : x ≠ .error .singularBlockMatrix) :
    x.map f ≠ .error .singularBlockMatrix := by
  cases x with
  | error e => exact error_val_ne hx rfl
  | ok a => simp [Except.map]

/-- The shared dispatch never raises the singular-block-matrix error. -/
lemma PDdispatch_ne_sbm {ι : Type} [Fintype ι] [DecidableEq ι]
    (inp : Eff.MatInput ι) (hasCholmod : Bool) (dpotrf : DpotrfT)
    (cholmodF : CholmodT) :
    (Eff.PDdispatch inp hasCholmod dpotrf cholmodF).2
      ≠ .error .singularBlockMatrix := by
  cases inp with
  | sparse A =>
    cases hasCholmod with
    | true =>
      show Except.map Eff.PDBackend.sparse (_SparsePosDefSolver.init cholmodF A)
        ≠ Except.error PyError.singularBlockMatrix
      exact map_ne_sbm _ (sparsePosDef_init_ne_sbm cholmodF A)
    | false =>
      show Except.map Eff.PDBackend.dense (_cholesky dpotrf A)
        ≠ Except.error PyError.singularBlockMatrix
      exact map_ne_sbm _ (_cholesky_ne_sbm dpotrf A)
  | dense A =>
    show Except.map Eff.PDBackend.dense (_cholesky dpotrf A)
      ≠ Except.error PyError.singularBlockMatrix
    exact map_ne_sbm _ (_cholesky_ne_sbm dpotrf A)

/-- The post-check body of `PartitionedPosDefSolver.__init__` never raises
the singular-block-matrix error, whatever the external backends do. -/
lemma partitionedPosDef_initAfterCheck_ne_sbm {n p : ℕ}
    (inp : Eff.MatInput (Fin n)) (B : Matrix (Fin n) (Fin p) ℚ)
    (hasCholmod : Bool) (dpotrf : DpotrfT) (dpotrs : DpotrsT)
    (cholmodF : CholmodT) (bi : Bool) :
    (Eff.PartitionedPosDefSolver.initAfterCheck inp B hasCholmod dpotrf
        dpotrs cholmodF bi).2 ≠ .error .singularBlockMatrix := by
  unfold Eff.PartitionedPosDefSolver.initAfterCheck
  dsimp only
  cases hw : (Eff.PDdispatch inp hasCholmod dpotrf cholmodF).2 with
  | error e =>
    dsimp only
    intro hc
    cases hc
    exact PDdispatch_ne_sbm inp hasCholmod dpotrf cholmodF hw
  | ok sA =>
    dsimp only
    cases h1 : sA.solve dpotrs B with
    | error e =>
      dsimp only
      intro hc
      cases hc
      exact pdBackend_solve_ne_sbm dpotrs sA B h1
    | ok AiB =>
      dsimp only
      cases h2 : _cholesky dpotrf (Bᵀ * AiB) with
      | error e =>
        dsimp only
        intro hc
        cases hc
        exact _cholesky_ne_sbm dpotrf (Bᵀ * AiB) h2
      | ok Schol =>
        dsimp only
        cases bi with
        | false => simp
        | true =>
          simp only [if_true]
          cases h3 : _solve_cholesky dpotrs Schol (1 : Matrix (Fin p) (Fin p) ℚ) with
          | error e =>
            dsimp only
            intro hc
            cases hc
            exact _solve_cholesky_ne_sbm dpotrs Schol _ h3
          | ok E0 =>
            dsimp only
            cases h4 : sA.solve dpotrs (1 : Matrix (Fin n) (Fin n) ℚ) with
            | error e =>
              dsimp only
              intro hc
              cases hc
              exact pdBackend_solve_ne_sbm dpotrs sA _ h4
            | ok C0 => simp

/-- C3.  For every off-diagonal block `B` of shape `n × p` and every
behavior of the external factorization routines, construction of
`PartitionedSolver(A, B)` and of `PartitionedPosDefSolver(A, B)` fails with
the singular-block-matrix `LinAlgError` exactly when `n < p`; the check
runs before any factorization is attempted (when `n < p` the error is
produced for every possible backend behavior, with no warning emitted),
and when `n ≥ p` construction proceeds into the post-check body. -/
theorem partitioned_shape_check_first {n p : ℕ} (inp : Eff.MatInput (Fin n))
    (B : Matrix (Fin n) (Fin p) ℚ) (dgetrf : DgetrfT) (dgetrs : DgetrsT)
    (splu : SpluT) (hasCholmod : Bool) (dpotrf : DpotrfT) (dpotrs : DpotrsT)
    (cholmodF : CholmodT) (bi : Bool) :
    ((Eff.PartitionedSolver.init inp B dgetrf dgetrs splu bi
        = .error .singularBlockMatrix) ↔ n < p) ∧
    (¬ n < p → Eff.PartitionedSolver.init inp B dgetrf dgetrs splu bi
        = Eff.PartitionedSolver.initAfterCheck inp B dgetrf dgetrs splu bi) ∧
    (((Eff.PartitionedPosDefSolver.init inp B hasCholmod dpotrf dpotrs
        cholmodF bi).2 = .error .singularBlockMatrix) ↔ n < p) ∧
    (n < p → Eff.PartitionedPosDefSolver.init inp B hasCholmod dpotrf dpotrs
        cholmodF bi = ([], .error .singularBlockMatrix)) ∧
    (¬ n < p → Eff.PartitionedPosDefSolver.init inp B hasCholmod dpotrf
        dpotrs cholmodF bi
        = Eff.PartitionedPosDefSolver.initAfterCheck inp B hasCholmod dpotrf
            dpotrs cholmodF bi) := by
  by_cases h : n < p
  · refine ⟨?_, ?_, ?_, ?_, ?_⟩
    · simp [Eff.PartitionedSolver.init, if_pos h, h]
    · exact fun hc => absurd h hc
    · simp [Eff.PartitionedPosDefSolver.init, if_pos h, h]
    · intro _
      simp [Eff.PartitionedPosDefSolver.init, if_pos h]
    · exact fun hc => absurd h hc
  · refine ⟨?_, ?_, ?_, ?_, ?_⟩
    · constructor
      · intro he
        simp only [Eff.PartitionedSolver.init, if_neg h] at he
        exact absurd he (partitionedSolver_initAfterCheck_ne_sbm inp B dgetrf
          dgetrs splu bi)
      · exact fun hl => absurd hl h
    · intro _
      simp [Eff.PartitionedSolver.init, if_neg h]
    · constructor
      · intro he
        simp only [Eff.PartitionedPosDefSolver.init, if_neg h] at he
        exact absurd he (partitionedPosDef_initAfterCheck_ne_sbm inp B
          hasCholmod dpotrf dpotrs cholmodF bi)
      · exact fun hl => absurd hl h
    · exact fun hl => absurd hl h
    · intro _
      simp [Eff.PartitionedPosDefSolver.init, if_neg h]

/-- Witness for C3: at `n = 0 < p = 1` both constructions fail with the
singular-block-matrix condition regardless of the backends, and at
`n = p = 1` they proceed past the check. -/
theorem partitioned_shape_check_witness :
    (Eff.PartitionedSolver.init (Eff.MatInput.dense (0 : Matrix (Fin 0) (Fin 0) ℚ))
        (0 : Matrix (Fin 0) (Fin 1) ℚ) dgetrfTriv dgetrsTriv spluTriv false
      = .error .singularBlockMatrix) ∧
    (Eff.PartitionedSolver.init (Eff.MatInput.dense (1 : Matrix (Fin 1) (Fin 1) ℚ))
        (1 : Matrix (Fin 1) (Fin 1) ℚ) dgetrfTriv dgetrsTriv spluTriv false
      = Eff.PartitionedSolver.initAfterCheck (Eff.MatInput.dense 1) 1
          dgetrfTriv dgetrsTriv spluTriv false) ∧
    (Eff.PartitionedPosDefSolver.init
        (Eff.MatInput.dense (0 : Matrix (Fin 0) (Fin 0) ℚ))
        (0 : Matrix (Fin 0) (Fin 1) ℚ) true dpotrfTriv dpotrsTriv cholmodTriv
        false = ([], .error .singularBlockMatrix)) :=
  ⟨(partitioned_shape_check_first (Eff.MatInput.dense 0) 0 dgetrfTriv
      dgetrsTriv spluTriv true dpotrfTriv dpotrsTriv cholmodTriv false).1.mpr
      (by decide),
   (partitioned_shape_check_first (Eff.MatInput.dense 1) 1 dgetrfTriv
      dgetrsTriv spluTriv true dpotrfTriv dpotrsTriv cholmodTriv false).2.1
      (by decide),
   (partitioned_shape_check_first (Eff.MatInput.dense 0) 0 dgetrfTriv
      dgetrsTriv spluTriv true dpotrfTriv dpotrsTriv cholmodTriv false).2.2.2.1
      (by decide)⟩

/-- Witness for C1 at `n = p = 1`, `A = B = a = b = 1`, identity
backends. -/
theorem partitioned_posdef_schur_witness :
    (Exact.PartitionedPosDefSolver.init (1 : Matrix (Fin 1) (Fin 1) ℚ)
        (idBackend (Fin 1)) (idBackend (Fin 1)) false).solve
        (1 : Matrix (Fin 1) (Fin 1) ℚ) (some 1)
      = specSchurRecipe 1 1 1 (1 : Matrix (Fin 1) (Fin 1) ℚ) (some 1) :=
  partitioned_posdef_solve_matches_schur_recipe 1 1 (idBackend (Fin 1))
    (idBackend (Fin 1)) 1 1 (by decide) rfl (by simp) (by simp)
    (by simp [idBackend]) (by simp) (by simp) 1 (some 1)

/-- C4 counterexample: the claim that GMRES's status/info code is returned
to the caller alongside the solution is false — `GMRESSolver.solve` returns
only the solution vector.  At a concrete input, two `gmres` behaviors that
return the same solution but different info codes (`0` versus `5`) produce
identical return values, so the info code is not part of what the caller
receives. -/
theorem gmres_info_not_returned_counterexample :
    Eff.GMRESSolver.solve (m := 1) ⟨1, fun _ => 1⟩ (fun _ v _ => (v, 0))
        (fun _ => 1) 1
      = Eff.GMRESSolver.solve (m := 1) ⟨1, fun _ => 1⟩ (fun _ v _ => (v, 5))
        (fun _ => 1) 1 := rfl

/-- C4 amended: `GMRESSolver.solve` does not raise on non-convergence — it
is a total function whose result is only the solution component `x` of
`x, info = gmres(self.A, b/self.n, ...)`; the info code is logged at debug
severity and discarded, so the returned value is independent of it. -/
theorem gmres_solve_returns_solution_only {m : ℕ}
    (st : Eff.GMRESSolverState m)
    (f : Matrix (Fin m) (Fin m) ℚ → (Fin m → ℚ) → ℚ → (Fin m → ℚ))
    (i₁ i₂ : ℤ) (b : Fin m → ℚ) (tol : ℚ) :
    Eff.GMRESSolver.solve st (fun A v t => (f A v t, i₁)) b tol
      = f st.A (fun i => b i / st.n i) tol ∧
    Eff.GMRESSolver.solve st (fun A v t => (f A v t, i₁)) b tol
      = Eff.GMRESSolver.solve st (fun A v t => (f A v t, i₂)) b tol :=
  ⟨rfl, rfl⟩

/-- C5.  When CHOLMOD could not be imported (`hasCholmod = false`) and the
factorization of the dense input `diag(1, -1)` fails (the `dpotrfFail`
model reports a non-positive leading minor, LAPACK's behavior on this
matrix), `is_positive_definite` does not return `False`: evaluating the
`except` clause's class tuple looks up the unbound name `cholmod` and
raises `NameError`.  With CHOLMOD importable the same input returns
`False`, confirming that returning a boolean is the intent. -/
theorem is_positive_definite_nameerror_when_cholmod_missing :
    Eff.is_positive_definite
        (Eff.MatInput.dense (!![1, 0; 0, -1] : Matrix (Fin 2) (Fin 2) ℚ))
        false dpotrfFail dpotrsTriv cholmodTriv = .error .nameError ∧
    Eff.is_positive_definite
        (Eff.MatInput.dense (!![1, 0; 0, -1] : Matrix (Fin 2) (Fin 2) ℚ))
        true dpotrfFail dpotrsTriv cholmodTriv = .ok false :=
  ⟨rfl, rfl⟩

/-- C6.  When `PosDefSolver` or `PartitionedPosDefSolver` is constructed
from a sparse matrix and CHOLMOD is unavailable, construction emits the
`CHOLMOD_MSG` warning, converts the matrix to dense, and proceeds exactly
as the dense-input constructor does (same backend state, hence the same
`solve`/`solve_L`/`L`/`log_det` results); in particular, whenever the dense
Cholesky factorization succeeds, construction succeeds with a dense
backend.  Dense input emits no warning. -/
theorem posdef_sparse_fallback_warns_and_degrades {ι : Type} [Fintype ι]
    [DecidableEq ι] (A : Matrix ι ι ℚ) (hc : Bool) (dpotrf : DpotrfT)
    (dpotrs : DpotrsT) (cholmodF : CholmodT) (bi : Bool) {n p : ℕ}
    (A2 : Matrix (Fin n) (Fin n) ℚ) (B : Matrix (Fin n) (Fin p) ℚ) :
    Eff.PosDefSolver.init (.sparse A) false dpotrf dpotrs cholmodF bi
      = ([.cholmodMsg],
          (Eff.PosDefSolver.init (.dense A) false dpotrf dpotrs cholmodF bi).2) ∧
    (Eff.PosDefSolver.init (.dense A) hc dpotrf dpotrs cholmodF bi).1 = [] ∧
    (∀ L, _cholesky dpotrf A = .ok L →
      (Eff.PosDefSolver.init (.sparse A) false dpotrf dpotrs cholmodF false).2
        = .ok ⟨.dense L, none⟩) ∧
    (¬ n < p →
      Eff.PartitionedPosDefSolver.init (.sparse A2) B false dpotrf dpotrs
          cholmodF bi
        = ([.cholmodMsg],
            (Eff.PartitionedPosDefSolver.init (.dense A2) B false dpotrf
                dpotrs cholmodF bi).2)) := by
  refine ⟨?_, ?_, ?_, ?_⟩
  · simp [Eff.PosDefSolver.init, Eff.PDdispatch]
  · simp [Eff.PosDefSolver.init, Eff.PDdispatch]
  · intro L hL
    simp [Eff.PosDefSolver.init, Eff.PDdispatch, hL, Except.map]
  · intro h
    simp [Eff.PartitionedPosDefSolver.init, if_neg h,
      Eff.PartitionedPosDefSolver.initAfterCheck, Eff.PDdispatch]

/-- Witness for C6: at `A = [[1]]` sparse with CHOLMOD missing and a
successful dense Cholesky model, construction succeeds with the dense
backend, and the fallback agrees with the dense-input path. -/
theorem posdef_sparse_fallback_witness :
    (Eff.PosDefSolver.init (.sparse (!![1] : Matrix (Fin 1) (Fin 1) ℚ))
        false dpotrfTriv dpotrsTriv cholmodTriv false).2
      = .ok ⟨.dense (!![1] : Matrix (Fin 1) (Fin 1) ℚ), none⟩ ∧
    (¬ (1 : ℕ) < 1 →
      Eff.PartitionedPosDefSolver.init
          (.sparse (!![1] : Matrix (Fin 1) (Fin 1) ℚ))
          (!![1] : Matrix (Fin 1) (Fin 1) ℚ) false dpotrfTriv dpotrsTriv
          cholmodTriv false
        = ([.cholmodMsg],
            (Eff.PartitionedPosDefSolver.init
                (.dense (!![1] : Matrix (Fin 1) (Fin 1) ℚ))
                (!![1] : Matrix (Fin 1) (Fin 1) ℚ) false dpotrfTriv
                dpotrsTriv cholmodTriv false).2)) :=
  ⟨(posdef_sparse_fallback_warns_and_degrades !![1] false dpotrfTriv
      dpotrsTriv cholmodTriv false !![1] !![1]).2.2.1 !![1] (by rfl),
   (posdef_sparse_fallback_warns_and_degrades !![1] false dpotrfTriv
      dpotrsTriv cholmodTriv false !![1] !![1]).2.2.2⟩

/-- C8 counterexample: the claim includes sparse input, but constructing a
`Solver` from an empty (`n = 0`) sparse matrix does not return an empty
result — `_SparseSolver.__init__`'s eagerly evaluated debug percentage
divides by `A.shape[0]*A.shape[1] = 0` and raises `ZeroDivisionError`, so
no solve can ever run. -/
theorem sparse_empty_init_zerodivision_counterexample :
    Eff.Solver.init (Eff.MatInput.sparse (0 : Matrix (Fin 0) (Fin 0) ℚ))
      dgetrfTriv dgetrsTriv spluTriv false = .error .zeroDivision := rfl

/-- C8 amended: for dense input the degenerate short-circuits hold — a
right-hand side with a zero dimension returns `np.zeros(b.shape)` from
`_solve_lu`/`_solve_cholesky` without invoking `dgetrs`/`dpotrs` (the
result is the same for every backend model), an `n = 0` dense
factorization returns an empty factor without invoking `dgetrf`/`dpotrf`,
and an `n = 0` dense `Solver`/`PosDefSolver` constructs successfully and
solves to an empty result, on both the factorization and the
`build_inverse` path.  The sparse path has no short-circuit:
`_SparseSolver.solve` always delegates to the backend, and the sparse
constructors raise `ZeroDivisionError` on an `n = 0` system. -/
theorem dense_empty_solves_short_circuit :
    (∀ (ι κ : Type) [Fintype ι] [Fintype κ] (dgetrs : DgetrsT)
        (fac : Matrix ι ι ℚ) (piv : ι → ℤ) (b : Matrix ι κ ℚ),
        Fintype.card ι = 0 ∨ Fintype.card κ = 0 →
        _solve_lu dgetrs fac piv b = .ok 0) ∧
    (∀ (ι κ : Type) [Fintype ι] [Fintype κ] (dpotrs : DpotrsT)
        (L : Matrix ι ι ℚ) (b : Matrix ι κ ℚ),
        Fintype.card ι = 0 ∨ Fintype.card κ = 0 →
        _solve_cholesky dpotrs L b = .ok 0) ∧
    (∀ (ι : Type) [Fintype ι] [DecidableEq ι] (dgetrf : DgetrfT)
        (A : Matrix ι ι ℚ), Fintype.card ι = 0 →
        _lu dgetrf A = .ok (0, fun _ => 0)) ∧
    (∀ (ι : Type) [Fintype ι] [DecidableEq ι] (dpotrf : DpotrfT)
        (A : Matrix ι ι ℚ), Fintype.card ι = 0 → _cholesky dpotrf A = .ok 0) ∧
    (∀ (ι κ : Type) [Fintype ι] [DecidableEq ι] [Fintype κ]
        (dgetrf : DgetrfT) (dgetrs : DgetrsT) (splu : SpluT) (bi : Bool)
        (A : Matrix ι ι ℚ) (b : Matrix ι κ ℚ), Fintype.card ι = 0 →
        Eff.Solver.init (.dense A) dgetrf dgetrs splu bi
          = .ok ⟨.dense 0 (fun _ => 0), if bi then some 0 else none⟩ ∧
        ∀ st, Eff.Solver.init (.dense A) dgetrf dgetrs splu bi = .ok st →
          Eff.Solver.solve st dgetrs b = .ok 0) ∧
    (∀ (ι κ : Type) [Fintype ι] [DecidableEq ι] [Fintype κ]
        (dpotrf : DpotrfT) (dpotrs : DpotrsT) (cholmodF : CholmodT)
        (bi : Bool) (A : Matrix ι ι ℚ) (b : Matrix ι κ ℚ),
        Fintype.card ι = 0 →
        (Eff.PosDefSolver.init (.dense A) true dpotrf dpotrs cholmodF bi).2
          = .ok ⟨.dense 0, if bi then some 0 else none⟩ ∧
        ∀ st, (Eff.PosDefSolver.init (.dense A) true dpotrf dpotrs
            cholmodF bi).2 = .ok st →
          Eff.PosDefSolver.solve st dpotrs b = .ok 0) ∧
    (∀ (ι : Type) [Fintype ι] [DecidableEq ι] (splu : SpluT)
        (cholmodF : CholmodT) (A : Matrix ι ι ℚ), Fintype.card ι = 0 →
        _SparseSolver.init splu A = .error .zeroDivision ∧
        _SparsePosDefSolver.init cholmodF A = .error .zeroDivision) ∧
    (∀ (ι κ : Type) (f : SpluFactor ι) (b : Matrix ι κ ℚ),
        _SparseSolver.solve f b = f.sol b) := by
  have hmul0 : ∀ (ι κ : Type) [Fintype ι] [Fintype κ],
      Fintype.card ι = 0 → ∀ (M : Matrix ι κ ℚ), M = 0 := by
    intro ι κ _ _ h M
    have he : IsEmpty ι := Fintype.card_eq_zero_iff.mp h
    ext i j
    exact (he.false i).elim
  refine ⟨?_, ?_, ?_, ?_, ?_, ?_, ?_, ?_⟩
  · intro ι κ _ _ dgetrs fac piv b h
    simp [_solve_lu, h]
  · intro ι κ _ _ dpotrs L b h
    simp [_solve_cholesky, h]
  · intro ι _ _ dgetrf A h
    simp [_lu, h]
  · intro ι _ _ dpotrf A h
    simp [_cholesky, h]
  · intro ι κ _ _ _ dgetrf dgetrs splu bi A b h
    have hinit : Eff.Solver.init (.dense A) dgetrf dgetrs splu bi
        = .ok ⟨.dense 0 (fun _ => 0), if bi then some 0 else none⟩ := by
      cases bi with
      | false => simp [Eff.Solver.init, _lu, h, Except.map]
      | true =>
        simp [Eff.Solver.init, _lu, h, Except.map, Eff.LUBackend.solve,
          _solve_lu]
    refine ⟨hinit, ?_⟩
    intro st hst
    rw [hinit] at hst
    cases hst
    cases bi with
    | false => simp [Eff.Solver.solve, Eff.LUBackend.solve, _solve_lu, h]
    | true =>
      simp only [Eff.Solver.solve, if_pos trivial]
      rw [hmul0 ι κ h (HMul.hMul (0 : Matrix ι ι ℚ) b)]
  · intro ι κ _ _ _ dpotrf dpotrs cholmodF bi A b h
    have hinit : (Eff.PosDefSolver.init (.dense A) true dpotrf dpotrs
        cholmodF bi).2 = .ok ⟨.dense 0, if bi then some 0 else none⟩ := by
      cases bi with
      | false =>
        simp [Eff.PosDefSolver.init, Eff.PDdispatch, _cholesky, h, Except.map]
      | true =>
        simp [Eff.PosDefSolver.init, Eff.PDdispatch, _cholesky, h,
          Except.map, Eff.PDBackend.solve, _solve_cholesky]
    refine ⟨hinit, ?_⟩
    intro st hst
    rw [hinit] at hst
    cases hst
    cases bi with
    | false =>
      simp [Eff.PosDefSolver.solve, Eff.PDBackend.solve, _solve_cholesky, h]
    | true =>
      simp only [Eff.PosDefSolver.solve, if_pos trivial]
      rw [hmul0 ι κ h (HMul.hMul (0 : Matrix ι ι ℚ) b)]
  · intro ι _ _ splu cholmodF A h
    constructor
    · simp [_SparseSolver.init, h]
    · simp [_SparsePosDefSolver.init, h]
  · intro ι κ f b
    rfl

/-- Witness for C8's amended statement at concrete empty inputs. -/
theorem dense_empty_solves_witness :
    _solve_lu (ι := Fin 0) (κ := Fin 1) dgetrsTriv 0 (fun _ => 0) 0 = .ok 0 ∧
    _lu (ι := Fin 0) dgetrfTriv 0 = .ok (0, fun _ => 0) ∧
    Eff.Solver.init (ι := Fin 0) (.dense 0) dgetrfTriv dgetrsTriv spluTriv
        true = .ok ⟨.dense 0 (fun _ => 0), some 0⟩ ∧
    _SparseSolver.init (ι := Fin 0) spluTriv 0 = .error .zeroDivision :=
  ⟨(dense_empty_solves_short_circuit.1 (Fin 0) (Fin 1) dgetrsTriv 0
      (fun _ => 0) 0 (Or.inl (by decide))),
   (dense_empty_solves_short_circuit.2.2.1 (Fin 0) dgetrfTriv 0 (by decide)),
   (dense_empty_solves_short_circuit.2.2.2.2.1 (Fin 0) (Fin 1) dgetrfTriv
      dgetrsTriv spluTriv true 0 0 (by decide)).1,
   (dense_empty_solves_short_circuit.2.2.2.2.2.2.1 (Fin 0) spluTriv
      cholmodTriv 0 (by decide)).1⟩

/-- C10.  With the sparse CHOLMOD backend, `solve_L(b)` raises the
dimension `ValueError` for every `b` whose `ndim` is neither 1 nor 2; for
1- or 2-dimensional `b` it returns `1/sqrt(D)` times the backend's
`solve_L` of `b` permuted by the fill-reducing permutation (with `s_inv`
broadcast over columns in the 2-d case).  The dense backend's `solve_L`
(`_solve_triangular`) can never produce that dimension error. -/
theorem sparse_solve_L_dim_check {ι : Type} [Fintype ι]
    (f : CholmodFactor ι) (chol : Matrix ι ι ℚ) (dtrtrs : DtrtrsT)
    (sqrtFn : ℚ → ℚ) (b : NDArray ι) :
    (b.ndim ≠ 1 ∧ b.ndim ≠ 2 →
      Eff.PosDefSolver.solve_L ⟨.sparse f, none⟩ dtrtrs sqrtFn b
        = .error .dimValueError) ∧
    (∀ v : ι → ℚ,
      Eff.PosDefSolver.solve_L ⟨.sparse f, none⟩ dtrtrs sqrtFn (.one v)
        = .ok (.one fun i => 1 / sqrtFn (f.d i)
            * f.solL1 (fun j => v (f.perm j)) i)) ∧
    (∀ (k : ℕ) (M : Matrix ι (Fin k) ℚ),
      Eff.PosDefSolver.solve_L ⟨.sparse f, none⟩ dtrtrs sqrtFn (.two k M)
        = .ok (.two k (Matrix.of fun i j => 1 / sqrtFn (f.d i)
            * f.solL2 (M.submatrix f.perm id) i j))) ∧
    (Eff.PosDefSolver.solve_L ⟨.dense chol, none⟩ dtrtrs sqrtFn b
        ≠ .error .dimValueError) := by
  refine ⟨?_, fun v => rfl, fun k M => rfl, ?_⟩
  · intro h
    cases b with
    | one v => exact absurd rfl h.1
    | two k M => exact absurd rfl h.2
    | higher d hh1 hh2 => rfl
  · show _solve_triangular dtrtrs chol b ≠ _
    unfold _solve_triangular
    dsimp only
    split
    · simp
    · split
      · simp
      · split <;> simp

/-- Witness for C10: a 3-dimensional right-hand side makes the sparse
`solve_L` raise the dimension `ValueError`. -/
theorem sparse_solve_L_dim_check_witness :
    Eff.PosDefSolver.solve_L (ι := Fin 1)
        ⟨.sparse (cholmodFactorTriv (Fin 1)), none⟩ dtrtrsTriv id
        (.higher 3 (by decide) (by decide))
      = .error .dimValueError :=
  (sparse_solve_L_dim_check (cholmodFactorTriv (Fin 1)) 0 dtrtrsTriv id
    (.higher 3 (by decide) (by decide))).1 ⟨by decide, by decide⟩

/-- C9.  Construction with `Solver`, `PosDefSolver`, `PartitionedSolver`
and `PartitionedPosDefSolver`, and calling the solve methods of all four,
return the caller's matrix and right-hand-side buffers unchanged (no
LAPACK overwrite flag is ever set and the normalizers only alias or
copy).  `GMRESSolver.__init__`
leaves the caller's buffer equal to `divide_rows A (row_norms A)` exactly
when `normalize_inplace` was passed and the matrix was already CSC, and
untouched whenever `normalize_inplace` is false; at a concrete input the
in-place normalization really changes the buffer. -/
theorem solvers_do_not_mutate_caller :
    (∀ (ι : Type) [Fintype ι] [DecidableEq ι] (inp : Eff.MatInput ι)
        (dgetrf : DgetrfT) (dgetrs : DgetrsT) (splu : SpluT) (bi : Bool),
        (Mem.Solver.init inp dgetrf dgetrs splu bi).2 = inp) ∧
    (∀ (ι κ : Type) [Fintype ι] [Fintype κ] (st : Eff.SolverState ι)
        (dgetrs : DgetrsT) (b : Matrix ι κ ℚ),
        (Mem.Solver.solve st dgetrs b).2 = b) ∧
    (∀ (ι : Type) [Fintype ι] [DecidableEq ι] (inp : Eff.MatInput ι)
        (hc : Bool) (dpotrf : DpotrfT) (dpotrs : DpotrsT)
        (cholmodF : CholmodT) (bi : Bool),
        (Mem.PosDefSolver.init inp hc dpotrf dpotrs cholmodF bi).2 = inp) ∧
    (∀ (ι κ : Type) [Fintype ι] [Fintype κ] (st : Eff.PosDefSolverState ι)
        (dpotrs : DpotrsT) (b : Matrix ι κ ℚ),
        (Mem.PosDefSolver.solve st dpotrs b).2 = b) ∧
    (∀ (n p : ℕ) (inp : Eff.MatInput (Fin n))
        (B : Matrix (Fin n) (Fin p) ℚ) (dgetrf : DgetrfT)
        (dgetrs : DgetrsT) (splu : SpluT) (bi : Bool),
        (Mem.PartitionedSolver.init inp B dgetrf dgetrs splu bi).2
          = (inp, B)) ∧
    (∀ (n p : ℕ) (inp : Eff.MatInput (Fin n))
        (B : Matrix (Fin n) (Fin p) ℚ) (hc : Bool) (dpotrf : DpotrfT)
        (dpotrs : DpotrsT) (cholmodF : CholmodT) (bi : Bool),
        (Mem.PartitionedPosDefSolver.init inp B hc dpotrf dpotrs cholmodF
            bi).2 = (inp, B)) ∧
    (∀ (n p : ℕ) (κ : Type) [Fintype κ] (st : Eff.PartitionedSolverState n p)
        (dgetrs : DgetrsT) (a : Matrix (Fin n) κ ℚ)
        (b? : Option (Matrix (Fin p) κ ℚ)),
        (Mem.PartitionedSolver.solve st dgetrs a b?).2 = (a, b?)) ∧
    (∀ (n p : ℕ) (κ : Type) [Fintype κ]
        (st : Eff.PartitionedPosDefSolverState n p) (dpotrs : DpotrsT)
        (a : Matrix (Fin n) κ ℚ) (b? : Option (Matrix (Fin p) κ ℚ)),
        (Mem.PartitionedPosDefSolver.solve st dpotrs a b?).2 = (a, b?)) ∧
    (∀ (m : ℕ) (A : Matrix (Fin m) (Fin m) ℚ) (isCsc : Bool)
        (rn : Matrix (Fin m) (Fin m) ℚ → Fin m → ℚ) (ni : Bool),
        (Mem.GMRESSolver.init A isCsc rn ni).2
          = if ni && isCsc then divide_rows A (rn A) else A) ∧
    (∀ (m : ℕ) (A : Matrix (Fin m) (Fin m) ℚ) (isCsc : Bool)
        (rn : Matrix (Fin m) (Fin m) ℚ → Fin m → ℚ),
        (Mem.GMRESSolver.init A isCsc rn false).2 = A) ∧
    (Mem.GMRESSolver.init (!![2] : Matrix (Fin 1) (Fin 1) ℚ) true
        (fun _ _ => 2) true).2 ≠ !![2] := by
  refine ⟨?_, ?_, ?_, ?_, ?_, ?_, ?_, ?_, ?_, ?_, ?_⟩
  · intros
    rfl
  · intros
    rfl
  · intros
    rfl
  · intros
    rfl
  · intros
    rfl
  · intros
    rfl
  · intros
    rfl
  · intros
    rfl
  · intros
    rfl
  · intros
    rfl
  intro hco
  have h00 := congrFun (congrFun hco 0) 0
  simp [Mem.GMRESSolver.init, divide_rows] at h00

/-- Witness for C2 at the identity backend and `b = 1`. -/
theorem solver_build_inverse_witness :
    (Exact.Solver.init (idBackend (Fin 1)) true).solve
        (1 : Matrix (Fin 1) (Fin 1) ℚ)
      = (Exact.Solver.init (idBackend (Fin 1)) false).solve 1 ∧
    (Exact.PosDefSolver.init (idBackend (Fin 1)) true).solve
        (1 : Matrix (Fin 1) (Fin 1) ℚ)
      = (Exact.PosDefSolver.init (idBackend (Fin 1)) false).solve 1 :=
  solver_build_inverse_path_agrees (idBackend (Fin 1)) (idBackend (Fin 1)) 1

/-- Witness for C7 at the identity backend on the `build_inverse` path. -/
theorem partitioned_solver_default_b_witness :
    (Exact.PartitionedSolver.init (idBackend (Fin 1 ⊕ Fin 1)) true).solve
        (1 : Matrix (Fin 1) (Fin 1) ℚ) none
      = (Exact.PartitionedSolver.init (idBackend (Fin 1 ⊕ Fin 1)) true).solve
        1 (some 0) :=
  (partitioned_solver_default_b_and_split (idBackend (Fin 1 ⊕ Fin 1)) true
    (1 : Matrix (Fin 1) (Fin 1) ℚ) 1).1

/-- Witness for C4's amended statement at a concrete system. -/
theorem gmres_solve_returns_solution_only_witness :
    Eff.GMRESSolver.solve (m := 1) ⟨1, fun _ => 1⟩
        (fun _ _ _ => ((fun _ => 1 : Fin 1 → ℚ), (0 : ℤ))) (fun _ => 1) 1
      = (fun _ => 1 : Fin 1 → ℚ) ∧
    Eff.GMRESSolver.solve (m := 1) ⟨1, fun _ => 1⟩
        (fun _ _ _ => ((fun _ => 1 : Fin 1 → ℚ), (0 : ℤ))) (fun _ => 1) 1
      = Eff.GMRESSolver.solve (m := 1) ⟨1, fun _ => 1⟩
        (fun _ _ _ => ((fun _ => 1 : Fin 1 → ℚ), (5 : ℤ))) (fun _ => 1) 1 :=
  gmres_solve_returns_solution_only ⟨1, fun _ => 1⟩
    (fun _ _ _ => (fun _ => 1 : Fin 1 → ℚ)) 0 5 (fun _ => 1) 1

/-- Witness for C9 at a concrete matrix. -/
theorem solvers_do_not_mutate_caller_witness :
    (Mem.Solver.init (Eff.MatInput.dense (!![1] : Matrix (Fin 1) (Fin 1) ℚ))
        dgetrfTriv dgetrsTriv spluTriv false).2
      = Eff.MatInput.dense (!![1] : Matrix (Fin 1) (Fin 1) ℚ) :=
  solvers_do_not_mutate_caller.1 (Fin 1) (Eff.MatInput.dense !![1])
    dgetrfTriv dgetrsTriv spluTriv false

end RBF